import Mathlib

/-!
Verification development for the instructlab_schema taxonomy parser.

This file shallowly embeds the Python sources `src/instructlab/schema/__init__.py`
and `src/instructlab/schema/taxonomy.py` into Lean 4 and proves properties of the
embedded definitions.  External collaborators (the filesystem, `yaml.safe_load`,
the `yamllint` subprocess, the `yq` line locator and the jsonschema validation
engine) are modelled as explicit inputs, following the component boundaries of
the design: the embedding covers the orchestration logic of the repository
itself, not the external tools it invokes.
-/

namespace InstructlabSchema

/-- YAML/JSON values as produced by `yaml.safe_load` / `json.loads`.
Mapping keys are modelled as strings (all keys used by the code are strings);
floats are not modelled (no claim involves them).  `bool` is kept separate
from `int` so that the Python rule `isinstance(True, int) == True` can be
modelled explicitly. -/
inductive YamlValue where
  | null
  | bool (b : Bool)
  | int (n : Int)
  | str (s : String)
  | seq (items : List YamlValue)
  | map (entries : List (String × YamlValue))

/-- Python truthiness (`bool(v)`) of a decoded YAML value: `None`, `False`,
`0`, `""`, `[]` and `{}` are falsy. -/
def YamlValue.isTruthy : YamlValue → Bool
  | .null => false
  | .bool b => b
  | .int n => n != 0
  | .str s => s != ""
  | .seq l => !l.isEmpty
  | .map l => !l.isEmpty

/-- Whether the value is a `Mapping` (`isinstance(parsed, Mapping)`). -/
def YamlValue.isMapping : YamlValue → Bool
  | .map _ => true
  | _ => false

/-- Dictionary lookup `d.get(k)`; keys in a decoded mapping are distinct
(the YAML loader collapses duplicates), so first-match lookup is faithful. -/
def YamlValue.mapGet : YamlValue → String → Option YamlValue
  | .map es, k => (es.find? (fun e => e.1 == k)).map (fun e => e.2)
  | _, _ => none

/-- Membership test `k in d` for a mapping. -/
def YamlValue.mapContains (v : YamlValue) (k : String) : Bool :=
  (v.mapGet k).isSome

/-- Python `isinstance(v, int)`, which is also true for booleans. -/
def YamlValue.isInstInt : YamlValue → Bool
  | .int _ => true
  | .bool _ => true
  | _ => false

/-- The integer value of a Python `int` instance (`True == 1`, `False == 0`).
Only meaningful when `isInstInt` holds. -/
def YamlValue.asInt : YamlValue → Int
  | .int n => n
  | .bool b => if b then 1 else 0
  | _ => 0

/-- Whitespace characters stripped by Python `int(str)` (ASCII subset). -/
def isPySpace (c : Char) : Bool :=
  c == ' ' || c == '\t' || c == '\n' || c == '\r' || c == '\x0b' || c == '\x0c'

/-- After an initial digit, Python integer literals allow single underscores
between digits.  `digitRun l` checks the tail of such a literal, assuming the
previous character was a digit. -/
def digitRun : List Char → Bool
  | [] => true
  | '_' :: [] => false
  | '_' :: c :: r => c.isDigit && digitRun r
  | c :: r => c.isDigit && digitRun r

/-- Numeric value of a digit string, ignoring underscores. -/
def digitsVal (l : List Char) : Nat :=
  (l.filter (fun c => c != '_')).foldl (fun a c => a * 10 + (c.toNat - '0'.toNat)) 0

/-- Unsigned part of `int(str)`: nonempty, starts with a digit, underscores
only between digits. -/
def pyNatOfChars (l : List Char) : Option Nat :=
  match l with
  | [] => none
  | c :: _ => if c.isDigit && digitRun l then some (digitsVal l) else none

/-- Python `int(s)` for a string `s`: strips whitespace, allows an optional
sign, then ASCII digits with single underscores between digits.  Returns
`none` where Python raises `ValueError`. -/
def pyStrToInt (s : String) : Option Int :=
  let l := ((s.data.dropWhile isPySpace).reverse.dropWhile isPySpace).reverse
  match l with
  | '+' :: r => (pyNatOfChars r).map (fun n => (n : Int))
  | '-' :: r => (pyNatOfChars r).map (fun n => -(n : Int))
  | r => (pyNatOfChars r).map (fun n => (n : Int))

/-- Python slice `s[-n:]`: the last `n` characters of `s` (all of `s` when it
has at most `n` characters). -/
def pySliceLast (n : Nat) (s : String) : String :=
  String.mk (s.data.drop (s.data.length - n))

/-- Python `%`-interpolation restricted to `%s` placeholders, which is the only
conversion the sources use. -/
def percentFormat : List Char → List String → List Char
  | [], _ => []
  | '%' :: 's' :: rest, a :: as => a.data ++ percentFormat rest as
  | c :: rest, as => c :: percentFormat rest as

/-- The enum `TaxonomyMessageFormat`. -/
inductive TaxonomyMessageFormat where
  | auto
  | standard
  | github
  | logging
deriving DecidableEq, Repr

/-- Severity of an emitted diagnostic. -/
inductive Severity where
  | error
  | warning
deriving DecidableEq, Repr

/-- One emitted diagnostic: the format string and arguments handed to
`Taxonomy.error` / `Taxonomy.warning`, together with position information.
`line` and `col` are strings because the Python code accepts `str | int` and
renders them textually. -/
structure Diagnostic where
  severity : Severity
  fmt : String
  args : List String
  line : String
  col : String
  yamlPath : String
deriving DecidableEq, Repr

/-- The message text of a diagnostic as reported: the Python methods apply
`message % message_args` only when `message_args` is nonempty. -/
def Diagnostic.message (d : Diagnostic) : String :=
  if d.args.isEmpty then d.fmt else String.mk (percentFormat d.fmt.data d.args)

/-- The class `Taxonomy`: the container for a parsed qna.yaml file.  The
`diagnostics` field models the emission channel (stdout / the logger), which
in Python is outside the object; counts and the other fields follow the
Python attributes. -/
structure Taxonomy where
  path : List String
  relPath : String
  messageFormat : TaxonomyMessageFormat
  errors : Nat
  warnings : Nat
  parsed : YamlValue
  version : Int
  diagnostics : List Diagnostic

/-- The constructor `Taxonomy.__init__`: `AUTO` resolves to `GITHUB` exactly
when both the `GITHUB_ACTIONS` and `GITHUB_WORKFLOW` environment variables are
set (`githubEnv`), else `STANDARD`; counters start at 0, `parsed` at the empty
mapping, `version` at 0. -/
def Taxonomy.create (path : List String) (relPath : String)
    (messageFormat : TaxonomyMessageFormat) (githubEnv : Bool) : Taxonomy :=
  { path := path
    relPath := relPath
    messageFormat :=
      if messageFormat = .auto then (if githubEnv then .github else .standard)
      else messageFormat
    errors := 0
    warnings := 0
    parsed := .map []
    version := 0
    diagnostics := [] }

/-- The method `Taxonomy.error`: increments the error counter, emits one
diagnostic, and returns the (updated) taxonomy for chaining. -/
def Taxonomy.error (t : Taxonomy) (fmt : String) (args : List String)
    (line col yamlPath : String) : Taxonomy :=
  { t with
    errors := t.errors + 1
    diagnostics := t.diagnostics ++ [⟨.error, fmt, args, line, col, yamlPath⟩] }

/-- The method `Taxonomy.warning`: increments the warning counter, emits one
diagnostic, and returns the (updated) taxonomy for chaining. -/
def Taxonomy.warning (t : Taxonomy) (fmt : String) (args : List String)
    (line col yamlPath : String) : Taxonomy :=
  { t with
    warnings := t.warnings + 1
    diagnostics := t.diagnostics ++ [⟨.warning, fmt, args, line, col, yamlPath⟩] }

/-- The predicate used by `schema_versions` in `__init__.py`:
`v.name[0] == "v" and v.name[1:].isdigit()` (directory entry names are
nonempty; ASCII digits are modelled). -/
def isVersionName (s : String) : Bool :=
  match s.data with
  | [] => false
  | c :: rest => c == 'v' && !rest.isEmpty && rest.all Char.isDigit

/-- The sort key of `schema_versions`: `int(k.name[1:])`. -/
def versionNum (s : String) : Nat :=
  digitsVal (s.data.drop 1)

/-- Comparison by the integer sort key, as used by `sorted(..., key=...)`. -/
def versionLE (a b : String) : Prop := versionNum a ≤ versionNum b

instance : DecidableRel versionLE := fun a b => Nat.decLe (versionNum a) (versionNum b)

instance : IsTotal String versionLE := ⟨fun a b => Nat.le_total (versionNum a) (versionNum b)⟩

instance : IsTrans String versionLE := ⟨fun _ _ _ h1 h2 => Nat.le_trans h1 h2⟩

/-- The function `schema_versions`: filter the entries under the schema base
whose name is `v` followed only by digits, sorted ascending by the integer
value of the digits.  Python's stable `sorted` is modelled by a stable
insertion sort on the same key; no property below depends on the relative
order of entries with equal keys. -/
def schemaVersions (entries : List String) : List String :=
  (entries.filter isVersionName).insertionSort versionLE

/-- The default schema version computed by `TaxonomyParser.__init__` when
`schema_version is None`: `int(versions[-1].name[1:])`, where `versions` is
the `schema_versions()` list; a `TaxonomyReadingException` is raised when the
list is empty. -/
def defaultSchemaVersion (entries : List String) : Except String Int :=
  match (schemaVersions entries).getLast? with
  | none => .error "Schema base does not contain any schema versions"
  | some v => .ok (versionNum v)

/-- The class `TaxonomyParser` (configuration state; the mutable
`yq_available` flag and the `lru_cache` are modelled separately as explicit
state). -/
structure TaxonomyParser where
  taxonomyFolders : List String
  schemaVersion : Int
  yamllintConfig : String
  yamllintStrict : Bool
  messageFormat : TaxonomyMessageFormat
deriving DecidableEq, Repr

/-- One finding extracted from the yamllint subprocess output by the regex
`[^:]+:(?P<line>[^:]+):(?P<col>[^:]+):\s*\[(?P<severity>[^]]+)\]\s*(?P<message>.*)`
in `TaxonomyParser._yamllint`.  Non-matching output lines are dropped before
this point, so the findings list models exactly the matched lines. -/
structure LintFinding where
  line : String
  col : String
  severity : String
  message : String
deriving DecidableEq, Repr

/-- Reporting of one lint finding by `TaxonomyParser._yamllint`: an error when
`yamllint_strict` is set or the severity is `error`, else a warning. -/
def reportLintFinding (strict : Bool) (t : Taxonomy) (f : LintFinding) : Taxonomy :=
  if strict || f.severity == "error" then t.error f.message [] f.line f.col ""
  else t.warning f.message [] f.line f.col ""

/-- The reporting loop of `TaxonomyParser._yamllint` over the findings parsed
from the subprocess output (the subprocess itself is an external collaborator;
a missing linter binary yields an empty findings list). -/
def yamllint (strict : Bool) (findings : List LintFinding) (t : Taxonomy) : Taxonomy :=
  findings.foldl (reportLintFinding strict) t

/-- The default `maxsize` of a bare `@lru_cache` decorator (`functools`),
which is what `TaxonomyParser._load_schema` uses. -/
def lruMaxsize : Nat := 128

/-- State of the `lru_cache` on `TaxonomyParser._load_schema`, together with a
count of the underlying (uncached) invocations of the load collaborator.
`entries` is kept in recency order, most recently used first, and is bounded
by `lruMaxsize` (the least recently used entry is evicted on insertion into a
full cache).  Only successful results are cached: `lru_cache` does not cache
calls that raise. -/
structure SchemaCache where
  entries : List (String × YamlValue)
  loadCalls : Nat

/-- Cache lookup by schema path. -/
def SchemaCache.find (st : SchemaCache) (path : String) : Option YamlValue :=
  (st.entries.find? (fun e => e.1 == path)).map (fun e => e.2)

/-- The method `TaxonomyParser._load_schema` under its bare `@lru_cache`
(`maxsize=128`): on a cache hit the underlying loader is not invoked and the
entry moves to the most-recently-used position; on a miss the schema file is
read and JSON-decoded (modelled by the `disk` map) — success is inserted at
the most-recently-used position, evicting the least recently used entry when
the cache already holds `lruMaxsize` entries, while any failure is raised as
`NoSuchResource(path)` (modelled by `.error path`) and not cached. -/
def loadSchema (disk : String → Option YamlValue) (st : SchemaCache) (path : String) :
    SchemaCache × Except String YamlValue :=
  match st.find path with
  | some v =>
    (⟨(path, v) :: st.entries.eraseP (fun e => e.1 == path), st.loadCalls⟩, .ok v)
  | none =>
    match disk path with
    | some v => (⟨((path, v) :: st.entries).take lruMaxsize, st.loadCalls + 1⟩, .ok v)
    | none => (⟨st.entries, st.loadCalls + 1⟩, .error path)

/-- One violation yielded by the jsonschema engine's `iter_errors` (an
external collaborator).  `line` models the best-effort result of the `yq`
line locator for this violation's path, already defaulted to `"1"` when the
locator is unavailable or fails. -/
structure Violation where
  validator : String
  validatorValue : Int
  message : String
  jsonPath : String
  line : String
deriving DecidableEq, Repr

/-- The model of `str(e)` for `NoSuchResource(path)`, used as the second
argument of the cannot-load diagnostic. -/
def noSuchResourceStr (path : String) : String :=
  "NoSuchResource(ref=" ++ path ++ ")"

/-- The per-violation reporting in `TaxonomyParser._schema_validate`:
`yaml_path = json_path[1:]` (defaulting to `"."` when empty); a `minItems`
violation is reported with the normalized message
`"Value must have at least %s items" % validator_value`, any other violation
with the last 200 characters of the engine's message. -/
def reportViolation (t : Taxonomy) (v : Violation) : Taxonomy :=
  let yp0 := v.jsonPath.drop 1
  let yp := if yp0 = "" then "." else yp0
  if v.validator == "minItems" then
    t.error "Value must have at least %s items" [toString v.validatorValue] v.line "1" yp
  else
    t.error (pySliceLast 200 v.message) [] v.line "1" yp

/-- Schema-name selection in `TaxonomyParser._schema_validate`: the first
segment of the taxonomy path when it is a configured taxonomy folder,
otherwise `knowledge` when the parsed document has a `document` key, else
`compositional_skills`. -/
def TaxonomyParser.schemaNameFor (p : TaxonomyParser) (path : List String)
    (parsed : YamlValue) : String :=
  let n := path.headD ""
  if p.taxonomyFolders.contains n then n
  else if parsed.mapContains "document" then "knowledge" else "compositional_skills"

/-- The root-schema path built by `_schema_validate` via `_retrieve`:
`Path(f"v{taxonomy.version}", f"{schema_name}.json").as_posix()`. -/
def TaxonomyParser.schemaPathFor (p : TaxonomyParser) (t : Taxonomy) : String :=
  "v" ++ toString t.version ++ "/" ++ p.schemaNameFor t.path t.parsed ++ ".json"

/-- The method `TaxonomyParser._schema_validate`: load the root schema for
(version, schema name); on success report every violation yielded by the
validation engine (`violations` models its `iter_errors` output); on a
`NoSuchResource` failure report a single error naming the missing schema
resource and stop. -/
def TaxonomyParser.schemaValidate (p : TaxonomyParser) (disk : String → Option YamlValue)
    (st : SchemaCache) (violations : List Violation) (t : Taxonomy) :
    SchemaCache × Taxonomy :=
  let path := p.schemaPathFor t
  match loadSchema disk st path with
  | (st1, .ok _) => (st1, violations.foldl reportViolation t)
  | (st1, .error ref) =>
    (st1, t.error "Cannot load schema file %s. %s" [ref, noSuchResourceStr ref] "1" "1" "")

/-- Version resolution in `TaxonomyParser.parse`: when the configured
`schema_version` is at least 1 it is used directly; otherwise the document's
`version` key is read (default `1` when absent); an `int` instance (including
booleans) is used as-is; any other value goes through `int(value)` with only
`ValueError` caught (falling back to 1), so `int` of a `None`, sequence or
mapping value raises `TypeError`, which propagates. -/
def resolveVersion (schemaVersion : Int) (parsed : YamlValue) : Except String Int :=
  if schemaVersion < 1 then
    let pv := (parsed.mapGet "version").getD (.int 1)
    if pv.isInstInt then .ok pv.asInt
    else
      match pv with
      | .str s => .ok ((pyStrToInt s).getD 1)
      | _ => .error "TypeError: int() argument"
  else .ok schemaVersion

/-- The taxonomy-folder anchoring loop at the start of `TaxonomyParser.parse`:
walk the absolute path's segments from the end and keep the suffix starting at
the first segment (from the end) that is a configured taxonomy folder. -/
def anchorSuffix (folders : List String) : List String → Option (List String)
  | [] => none
  | p :: rest =>
    match anchorSuffix folders rest with
    | some s => some s
    | none => if folders.contains p then some (p :: rest) else none

/-- The exception `TaxonomyReadingException` raised by `parse`. -/
inductive ParseError where
  | taxonomyReadingException (cause : String)
deriving DecidableEq, Repr

/-- The external inputs of one `TaxonomyParser.parse` call: the resolved
absolute path's segments, whether it is a regular file, the outcome of
`yaml.safe_load` on the file's content (`.error` models a read or decode
exception), the findings parsed from the yamllint subprocess output, the
violations yielded by the validation engine, the schema files on disk, and
whether both GitHub Actions environment variables are set. -/
structure ParseInput where
  pathParts : List String
  isFile : Bool
  decodeResult : Except String YamlValue
  lintFindings : List LintFinding
  violations : List Violation
  disk : String → Option YamlValue
  githubEnv : Bool

/-- The `Taxonomy` object built at the start of `parse` (step 1 of the
orchestrator): the anchored taxonomy path and the freshly created entry. -/
def initialTaxonomy (p : TaxonomyParser) (i : ParseInput) : Taxonomy :=
  Taxonomy.create ((anchorSuffix p.taxonomyFolders i.pathParts).getD i.pathParts)
    ("/".intercalate i.pathParts) p.messageFormat i.githubEnv

/-- The method `TaxonomyParser.parse`, threading the schema cache explicitly:
anchor the taxonomy path, check existence and the literal name `qna.yaml`,
decode, handle falsy and non-mapping documents, resolve the version, lint
only when the resolved version exceeds 1, and schema-validate.  Exceptions
escaping the body are wrapped in `TaxonomyReadingException`. -/
def TaxonomyParser.parse (p : TaxonomyParser) (st : SchemaCache) (i : ParseInput) :
    Except ParseError (Taxonomy × SchemaCache) :=
  let absStr := "/".intercalate i.pathParts
  let t0 := initialTaxonomy p i
  if !i.isFile then
    .ok (t0.error "The file \"%s\" does not exist or is not a file" [absStr] "1" "1" "", st)
  else if i.pathParts.getLastD "" ≠ "qna.yaml" then
    .ok (t0.error "Taxonomy file must be named \"qna.yaml\"; \"%s\" is not a valid name"
      [i.pathParts.getLastD ""] "1" "1" "", st)
  else
    match i.decodeResult with
    | .error e => .error (.taxonomyReadingException e)
    | .ok parsed =>
      if !parsed.isTruthy then
        .ok (t0.warning "The file is empty" [] "1" "1" "", st)
      else if !parsed.isMapping then
        .ok (t0.error
          "The file is not valid. The top-level element is not an object with key-value pairs."
          [] "1" "1" "", st)
      else
        match resolveVersion p.schemaVersion parsed with
        | .error e => .error (.taxonomyReadingException e)
        | .ok version =>
          let t1 := { t0 with version := version, parsed := parsed }
          let t2 := if version > 1 then yamllint p.yamllintStrict i.lintFindings t1 else t1
          let r := p.schemaValidate i.disk st i.violations t2
          .ok (r.2, r.1)

/-! ### Helper lemmas -/

theorem error_path (t : Taxonomy) (fmt : String) (args : List String) (l c yp : String) :
    (t.error fmt args l c yp).path = t.path := rfl

theorem error_parsed (t : Taxonomy) (fmt : String) (args : List String) (l c yp : String) :
    (t.error fmt args l c yp).parsed = t.parsed := rfl

theorem error_version (t : Taxonomy) (fmt : String) (args : List String) (l c yp : String) :
    (t.error fmt args l c yp).version = t.version := rfl

theorem warning_path (t : Taxonomy) (fmt : String) (args : List String) (l c yp : String) :
    (t.warning fmt args l c yp).path = t.path := rfl

theorem warning_parsed (t : Taxonomy) (fmt : String) (args : List String) (l c yp : String) :
    (t.warning fmt args l c yp).parsed = t.parsed := rfl

theorem warning_version (t : Taxonomy) (fmt : String) (args : List String) (l c yp : String) :
    (t.warning fmt args l c yp).version = t.version := rfl

theorem reportLintFinding_path (s : Bool) (t : Taxonomy) (f : LintFinding) :
    (reportLintFinding s t f).path = t.path := by
  unfold reportLintFinding; split <;> rfl

theorem reportLintFinding_parsed (s : Bool) (t : Taxonomy) (f : LintFinding) :
    (reportLintFinding s t f).parsed = t.parsed := by
  unfold reportLintFinding; split <;> rfl

theorem reportLintFinding_version (s : Bool) (t : Taxonomy) (f : LintFinding) :
    (reportLintFinding s t f).version = t.version := by
  unfold reportLintFinding; split <;> rfl

theorem reportLintFinding_counts (s : Bool) (t : Taxonomy) (f : LintFinding) :
    (reportLintFinding s t f).errors + (reportLintFinding s t f).warnings
      = t.errors + t.warnings + 1 := by
  unfold reportLintFinding; split
  · simp [Taxonomy.error]; omega
  · simp [Taxonomy.warning]; omega

theorem yamllint_path (s : Bool) (fs : List LintFinding) (t : Taxonomy) :
    (yamllint s fs t).path = t.path := by
  induction fs generalizing t with
  | nil => rfl
  | cons f fs ih => simpa [yamllint, List.foldl_cons, reportLintFinding_path]
      using (ih (reportLintFinding s t f)).trans (reportLintFinding_path s t f)

theorem yamllint_parsed (s : Bool) (fs : List LintFinding) (t : Taxonomy) :
    (yamllint s fs t).parsed = t.parsed := by
  induction fs generalizing t with
  | nil => rfl
  | cons f fs ih => simpa [yamllint, List.foldl_cons, reportLintFinding_parsed]
      using (ih (reportLintFinding s t f)).trans (reportLintFinding_parsed s t f)

theorem yamllint_version (s : Bool) (fs : List LintFinding) (t : Taxonomy) :
    (yamllint s fs t).version = t.version := by
  induction fs generalizing t with
  | nil => rfl
  | cons f fs ih => simpa [yamllint, List.foldl_cons, reportLintFinding_version]
      using (ih (reportLintFinding s t f)).trans (reportLintFinding_version s t f)

theorem yamllint_counts (s : Bool) (fs : List LintFinding) (t : Taxonomy) :
    (yamllint s fs t).errors + (yamllint s fs t).warnings
      = t.errors + t.warnings + fs.length := by
  induction fs generalizing t with
  | nil => simp [yamllint]
  | cons f fs ih =>
    have h1 := ih (reportLintFinding s t f)
    have h2 := reportLintFinding_counts s t f
    simp only [yamllint, List.foldl_cons] at h1 ⊢
    simp only [List.length_cons]
    omega

theorem reportViolation_errors (t : Taxonomy) (v : Violation) :
    (reportViolation t v).errors = t.errors + 1 := by
  unfold reportViolation; split <;> rfl

theorem reportViolation_warnings (t : Taxonomy) (v : Violation) :
    (reportViolation t v).warnings = t.warnings := by
  unfold reportViolation; split <;> rfl

theorem foldl_reportViolation_errors (vs : List Violation) (t : Taxonomy) :
    (vs.foldl reportViolation t).errors = t.errors + vs.length := by
  induction vs generalizing t with
  | nil => simp
  | cons v vs ih =>
    have := ih (reportViolation t v)
    simp only [List.foldl_cons, List.length_cons] at this ⊢
    rw [this, reportViolation_errors]; omega

theorem foldl_reportViolation_warnings (vs : List Violation) (t : Taxonomy) :
    (vs.foldl reportViolation t).warnings = t.warnings := by
  induction vs generalizing t with
  | nil => simp
  | cons v vs ih =>
    have := ih (reportViolation t v)
    simp only [List.foldl_cons] at this ⊢
    rw [this, reportViolation_warnings]

/-! ### C9 -/

/-- C9: `Taxonomy.error` increments the error counter by exactly 1 and leaves
the warning counter, `path`, `rel_path`, `message_format`, `parsed` and
`version` unchanged; symmetrically `Taxonomy.warning` increments only the
warning counter by exactly 1.  The Python methods mutate the object in place
and return `self`; in this pure embedding the returned record carries the
incremented counter, and the frame conditions state that nothing else of the
entry changed. -/
theorem taxonomy_error_warning_frame (t : Taxonomy) (fmt : String) (args : List String)
    (line col yp : String) :
    ((t.error fmt args line col yp).errors = t.errors + 1 ∧
     (t.error fmt args line col yp).warnings = t.warnings ∧
     (t.error fmt args line col yp).path = t.path ∧
     (t.error fmt args line col yp).relPath = t.relPath ∧
     (t.error fmt args line col yp).messageFormat = t.messageFormat ∧
     (t.error fmt args line col yp).parsed = t.parsed ∧
     (t.error fmt args line col yp).version = t.version) ∧
    ((t.warning fmt args line col yp).warnings = t.warnings + 1 ∧
     (t.warning fmt args line col yp).errors = t.errors ∧
     (t.warning fmt args line col yp).path = t.path ∧
     (t.warning fmt args line col yp).relPath = t.relPath ∧
     (t.warning fmt args line col yp).messageFormat = t.messageFormat ∧
     (t.warning fmt args line col yp).parsed = t.parsed ∧
     (t.warning fmt args line col yp).version = t.version) :=
  ⟨⟨rfl, rfl, rfl, rfl, rfl, rfl, rfl⟩, ⟨rfl, rfl, rfl, rfl, rfl, rfl, rfl⟩⟩

/-! ### C8 -/

theorem pairwise_versionNum_getLast {l : List String}
    (h : List.Pairwise (fun a b => versionNum a ≤ versionNum b) l)
    {a x : String} (ha : a ∈ l) (hx : l.getLast? = some x) : versionNum a ≤ versionNum x := by
  induction l with
  | nil => cases ha
  | cons b t ih =>
    cases t with
    | nil =>
      simp only [List.mem_singleton] at ha
      simp only [List.getLast?_singleton, Option.some.injEq] at hx
      subst ha; subst hx; exact le_refl _
    | cons c t' =>
      rw [List.getLast?_cons_cons] at hx
      rcases List.mem_cons.mp ha with rfl | hmem
      · have hxmem : x ∈ c :: t' := by
          rcases List.mem_getLast?_eq_getLast (l := c :: t') (x := x) hx with ⟨hne, heq⟩
          exact heq ▸ List.getLast_mem hne
        exact (List.pairwise_cons.mp h).1 x hxmem
      · exact ih (List.pairwise_cons.mp h).2 hmem hx

/-- C8: `schema_versions` returns exactly the entries directly under the
schema root whose name is `v` followed by one or more digits, sorted ascending
by the integer value of the digits; and when the default schema version is
computed from a nonempty list it is the integer of the last element, hence an
upper bound of (and attained by) all discovered version numbers. -/
theorem schema_versions_spec (entries : List String) :
    (∀ s, s ∈ schemaVersions entries ↔ s ∈ entries ∧ isVersionName s = true) ∧
    List.Pairwise (fun a b => versionNum a ≤ versionNum b) (schemaVersions entries) ∧
    ∀ n, defaultSchemaVersion entries = .ok n →
      (∃ s, s ∈ entries ∧ isVersionName s = true ∧ (versionNum s : Int) = n) ∧
      ∀ s, s ∈ entries → isVersionName s = true → (versionNum s : Int) ≤ n := by
  have hmem : ∀ s, s ∈ schemaVersions entries ↔ s ∈ entries ∧ isVersionName s = true := by
    intro s
    unfold schemaVersions
    rw [List.mem_insertionSort, List.mem_filter]
  have hsorted : List.Pairwise (fun a b => versionNum a ≤ versionNum b)
      (schemaVersions entries) :=
    List.sorted_insertionSort versionLE (entries.filter isVersionName)
  refine ⟨hmem, hsorted, ?_⟩
  intro n hn
  unfold defaultSchemaVersion at hn
  rcases hlast : (schemaVersions entries).getLast? with _ | v
  · rw [hlast] at hn; cases hn
  · rw [hlast] at hn
    injection hn with hn
    have hv : v ∈ schemaVersions entries := by
      rcases List.mem_getLast?_eq_getLast (x := v) hlast with ⟨hne, hge⟩
      exact hge ▸ List.getLast_mem hne
    refine ⟨⟨v, ((hmem v).mp hv).1, ((hmem v).mp hv).2, hn⟩, ?_⟩
    · intro s hs hvn
      have hmem2 : s ∈ schemaVersions entries := (hmem s).mpr ⟨hs, hvn⟩
      have := pairwise_versionNum_getLast hsorted hmem2 hlast
      omega

/-- Witness for C8 at a concrete entry list: `v10` beats `v2` numerically
(a lexicographic sort would put `v10` first), and membership is as filtered. -/
theorem schema_versions_spec_witness :
    (versionNum "v2" : Int) ≤ 10 ∧ "v10" ∈ schemaVersions ["v10", "v2", "va"] := by
  constructor
  · exact ((schema_versions_spec ["v10", "v2", "va"]).2.2 10 rfl).2 "v2"
      (by simp) (by decide)
  · exact ((schema_versions_spec ["v10", "v2", "va"]).1 "v10").mpr ⟨by simp, by decide⟩

/-! ### C7 -/

/-- Running a sequence of `_load_schema` calls, threading the cache. -/
def runLoads (disk : String → Option YamlValue) (st : SchemaCache) : List String → SchemaCache
  | [] => st
  | p :: ps => runLoads disk (loadSchema disk st p).1 ps

/-- The entry `(p, v)` sits within the first `k + 1` recency positions of the
cache, with no other entry for key `p` in front of it. -/
def entryFresh (entries : List (String × YamlValue)) (p : String) (v : YamlValue)
    (k : Nat) : Prop :=
  ∃ pre post, entries = pre ++ (p, v) :: post ∧ pre.length ≤ k ∧ ∀ e ∈ pre, e.1 ≠ p

theorem entryFresh_find (st : SchemaCache) (p : String) (v : YamlValue) (k : Nat)
    (h : entryFresh st.entries p v k) : st.find p = some v := by
  obtain ⟨pre, post, he, -, hpre⟩ := h
  unfold SchemaCache.find
  rw [he, List.find?_append]
  have hnone : pre.find? (fun e => e.1 == p) = none :=
    List.find?_eq_none.mpr (fun e hm => by simpa using hpre e hm)
  rw [hnone]
  simp

theorem entryFresh_load (disk : String → Option YamlValue) (st : SchemaCache)
    (q p : String) (v : YamlValue) (k : Nat)
    (hf : entryFresh st.entries p v k) (hk : k + 1 < lruMaxsize) :
    entryFresh ((loadSchema disk st q).1).entries p v (k + 1) := by
  obtain ⟨pre, post, he, hlen, hpre⟩ := hf
  unfold loadSchema
  cases hq : st.find q with
  | none =>
    cases hd : disk q with
    | none => exact ⟨pre, post, he, by omega, hpre⟩
    | some w =>
      have hqp : q ≠ p := by
        intro hqp
        subst hqp
        rw [entryFresh_find st q v k ⟨pre, post, he, hlen, hpre⟩] at hq
        cases hq
      refine ⟨(q, w) :: pre, post.take (lruMaxsize - pre.length - 2), ?_, ?_, ?_⟩
      · show ((q, w) :: st.entries).take lruMaxsize = _
        rw [he,
          show (q, w) :: (pre ++ (p, v) :: post) = ((q, w) :: pre) ++ (p, v) :: post from rfl,
          List.take_append_eq_append_take,
          List.take_of_length_le (by simp only [List.length_cons]; omega),
          show lruMaxsize - ((q, w) :: pre).length = (lruMaxsize - pre.length - 2) + 1 from by
            simp only [List.length_cons]; omega,
          List.take_succ_cons]
      · simp only [List.length_cons]; omega
      · intro e hm
        rcases List.mem_cons.mp hm with rfl | hm
        · exact hqp
        · exact hpre e hm
  | some w =>
    by_cases hqp : q = p
    · cases hqp
      have hv : st.find q = some v := entryFresh_find st q v k ⟨pre, post, he, hlen, hpre⟩
      rw [hv] at hq
      injection hq with hq
      cases hq
      exact ⟨[], st.entries.eraseP (fun e => e.1 == q), rfl, Nat.zero_le _, by simp⟩
    · rw [he]
      by_cases hmem : ∃ e ∈ pre, e.1 == q
      · obtain ⟨a, ham, hpa⟩ := hmem
        rw [List.eraseP_append_left (p := fun e => e.1 == q) hpa _ ham]
        refine ⟨(q, w) :: pre.eraseP (fun e => e.1 == q), post, rfl, ?_, ?_⟩
        · have h1 : (pre.eraseP (fun e => e.1 == q)).length = pre.length - 1 :=
            List.length_eraseP_of_mem ham hpa
          have h2 : 1 ≤ pre.length := List.length_pos.mpr (List.ne_nil_of_mem ham)
          simp only [List.length_cons]
          omega
        · intro e hm
          rcases List.mem_cons.mp hm with rfl | hm
          · exact fun hc => hqp hc
          · exact hpre e (List.mem_of_mem_eraseP hm)
      · have hall : ∀ b ∈ pre, ¬(b.1 == q) = true := by
          intro b hb hc
          exact hmem ⟨b, hb, hc⟩
        rw [List.eraseP_append_right _ hall,
          List.eraseP_cons_of_neg (by simpa using fun hc => hqp hc.symm)]
        refine ⟨(q, w) :: pre, post.eraseP (fun e => e.1 == q), ?_, ?_, ?_⟩
        · rfl
        · simp only [List.length_cons]; omega
        · intro e hm
          rcases List.mem_cons.mp hm with rfl | hm
          · exact fun hc => hqp hc
          · exact hpre e hm

theorem entryFresh_runLoads (disk : String → Option YamlValue) (ps : List String)
    (st : SchemaCache) (p : String) (v : YamlValue) (k : Nat)
    (hf : entryFresh st.entries p v k) (h : k + ps.length < lruMaxsize) :
    entryFresh ((runLoads disk st ps).entries) p v (k + ps.length) := by
  induction ps generalizing st k with
  | nil => simpa using hf
  | cons q ps ih =>
    have h1 := entryFresh_load disk st q p v k hf
      (by simp only [List.length_cons] at h; omega)
    have h2 := ih (loadSchema disk st q).1 (k + 1) h1
      (by simp only [List.length_cons] at h; omega)
    have h3 : k + (q :: ps).length = (k + 1) + ps.length := by
      simp only [List.length_cons]; omega
    rw [h3]
    exact h2

theorem loadSchema_ok_head (disk : String → Option YamlValue) (st st1 : SchemaCache)
    (p : String) (v : YamlValue) (h : loadSchema disk st p = (st1, .ok v)) :
    ∃ rest, st1.entries = (p, v) :: rest := by
  unfold loadSchema at h
  cases hp : st.find p with
  | some w =>
    rw [hp] at h
    injection h with h1 h2
    injection h2 with h2
    cases h2
    exact ⟨st.entries.eraseP (fun e => e.1 == p), by rw [← h1]⟩
  | none =>
    rw [hp] at h
    cases hd : disk p with
    | none =>
      rw [hd] at h
      injection h with h1 h2
      cases h2
    | some w =>
      rw [hd] at h
      injection h with h1 h2
      injection h2 with h2
      cases h2
      refine ⟨st.entries.take (lruMaxsize - 1), ?_⟩
      rw [← h1]
      show ((p, v) :: st.entries).take lruMaxsize = (p, v) :: st.entries.take (lruMaxsize - 1)
      exact @List.take_succ_cons _ (p, v) st.entries (lruMaxsize - 1)

theorem loadSchema_reload (disk : String → Option YamlValue) (st st1 : SchemaCache)
    (p : String) (v : YamlValue) (h : loadSchema disk st p = (st1, .ok v)) :
    loadSchema disk st1 p = (st1, .ok v) := by
  obtain ⟨es, c⟩ := st1
  obtain ⟨rest, hre⟩ := loadSchema_ok_head disk st ⟨es, c⟩ p v h
  simp only at hre
  subst hre
  unfold loadSchema
  have hfind : SchemaCache.find ⟨(p, v) :: rest, c⟩ p = some v := by
    unfold SchemaCache.find
    simp [List.find?_cons_of_pos]
  rw [hfind, List.eraseP_cons_of_pos (by simp)]

/-- C7 (amended): once `_load_schema` has successfully loaded a schema path,
loading it a second time returns the identical cached parsed structure and
leaves the cache state entirely unchanged, and across every intervening
sequence of fewer than 128 loads (the `functools.lru_cache` default
`maxsize`) a later load of the same path still returns the cached value
without invoking the underlying load collaborator.  The guarantee is bounded:
the bare `@lru_cache` evicts the least recently used entry, so a sequence
with 128 or more distinct other successful loads forces a disk re-read (see
the counterexample). -/
theorem load_schema_cached (disk : String → Option YamlValue) (st st1 : SchemaCache)
    (p : String) (v : YamlValue) (h : loadSchema disk st p = (st1, .ok v))
    (ps : List String) (hlen : ps.length < lruMaxsize) :
    (loadSchema disk (runLoads disk st1 ps) p).2 = .ok v ∧
    (loadSchema disk (runLoads disk st1 ps) p).1.loadCalls
      = (runLoads disk st1 ps).loadCalls ∧
    loadSchema disk st1 p = (st1, .ok v) := by
  obtain ⟨rest, hre⟩ := loadSchema_ok_head disk st st1 p v h
  have hf0 : entryFresh st1.entries p v 0 :=
    ⟨[], rest, by simpa using hre, Nat.le_refl 0, by simp⟩
  have hfk := entryFresh_runLoads disk ps st1 p v 0 hf0 (by omega)
  have hfind := entryFresh_find (runLoads disk st1 ps) p v _ hfk
  refine ⟨?_, ?_, loadSchema_reload disk st st1 p v h⟩
  · unfold loadSchema
    rw [hfind]
  · unfold loadSchema
    rw [hfind]

set_option maxRecDepth 100000 in
/-- Counterexample for C7 as stated: the cache is the `functools.lru_cache`
default with `maxsize` 128.  After a successful load of `p` followed by 128
distinct other successful loads, `p` has been evicted: loading `p` again
invokes the underlying load collaborator once more (the call count rises from
129 to 130), i.e. the file is re-read, so the claimed guarantee does not hold
for every sequence of loads. -/
theorem load_schema_cached_counterexample :
    ((loadSchema (fun _ => some (YamlValue.map []))
        (runLoads (fun _ => some (YamlValue.map [])) ⟨[], 0⟩
          ("p" :: (List.range lruMaxsize).map (fun n => toString n))) "p").1.loadCalls,
      (runLoads (fun _ => some (YamlValue.map [])) ⟨[], 0⟩
          ("p" :: (List.range lruMaxsize).map (fun n => toString n))).loadCalls)
    = (lruMaxsize + 2, lruMaxsize + 1) := by decide

/-- Witness for C7: a concrete first load of `a`, followed by loads of `b`
and `a`, still returns the cached contents without a further underlying
call, and an immediate reload leaves the state unchanged. -/
theorem load_schema_cached_witness :
    (loadSchema (fun _ => some (YamlValue.map []))
        (runLoads (fun _ => some (YamlValue.map [])) ⟨[("a", YamlValue.map [])], 1⟩
          ["b", "a"]) "a").2 = .ok (YamlValue.map []) ∧
    (loadSchema (fun _ => some (YamlValue.map []))
        (runLoads (fun _ => some (YamlValue.map [])) ⟨[("a", YamlValue.map [])], 1⟩
          ["b", "a"]) "a").1.loadCalls
      = (runLoads (fun _ => some (YamlValue.map [])) ⟨[("a", YamlValue.map [])], 1⟩
          ["b", "a"]).loadCalls ∧
    loadSchema (fun _ => some (YamlValue.map [])) ⟨[("a", YamlValue.map [])], 1⟩ "a"
      = (⟨[("a", YamlValue.map [])], 1⟩, .ok (YamlValue.map [])) :=
  load_schema_cached (fun _ => some (YamlValue.map [])) ⟨[], 0⟩
    ⟨[("a", YamlValue.map [])], 1⟩ "a" (YamlValue.map []) rfl ["b", "a"] (by decide)
/-! ### C5 -/

theorem percentFormat_minItems (a : String) :
    String.mk (percentFormat "Value must have at least %s items".data [a])
      = "Value must have at least " ++ a ++ " items" := by
  apply String.ext
  show "Value must have at least ".data ++ (a.data ++ " items".data) = _
  simp [String.data_append]

/-- C5: a schema-validation violation whose validator keyword is `minItems` is
reported as exactly one error diagnostic whose message is exactly
`Value must have at least <N> items` with `<N>` the configured minimum count,
independent of the validation engine's own message for the violation. -/
theorem min_items_message (t : Taxonomy) (v : Violation) (h : v.validator = "minItems") :
    ∃ d, (reportViolation t v).diagnostics = t.diagnostics ++ [d] ∧
      d.severity = .error ∧
      d.message = "Value must have at least " ++ toString v.validatorValue ++ " items" ∧
      ∀ m, reportViolation t { v with message := m } = reportViolation t v := by
  have hr : ∀ w : Violation, w.validator = "minItems" →
      reportViolation t w = t.error "Value must have at least %s items"
        [toString w.validatorValue] w.line "1"
        (if w.jsonPath.drop 1 = "" then "." else w.jsonPath.drop 1) := by
    intro w hw
    unfold reportViolation
    rw [if_pos (by simp [hw])]
  refine ⟨⟨.error, "Value must have at least %s items", [toString v.validatorValue],
    v.line, "1", if v.jsonPath.drop 1 = "" then "." else v.jsonPath.drop 1⟩, ?_, rfl, ?_, ?_⟩
  · rw [hr v h]; rfl
  · exact percentFormat_minItems (toString v.validatorValue)
  · intro m
    rw [hr v h, hr { v with message := m } h]

/-- Witness for C5 at a concrete violation with minimum count 5. -/
theorem min_items_message_witness :
    ∃ d, (reportViolation (Taxonomy.create ["knowledge"] "p" .standard false)
        ⟨"minItems", 5, "engine text", "$.seed_examples", "12"⟩).diagnostics
      = (Taxonomy.create ["knowledge"] "p" .standard false).diagnostics ++ [d] ∧
      d.severity = .error ∧
      d.message = "Value must have at least " ++ toString (5 : Int) ++ " items" ∧
      ∀ m, reportViolation (Taxonomy.create ["knowledge"] "p" .standard false)
          { (⟨"minItems", 5, "engine text", "$.seed_examples", "12"⟩ : Violation) with
            message := m }
        = reportViolation (Taxonomy.create ["knowledge"] "p" .standard false)
          ⟨"minItems", 5, "engine text", "$.seed_examples", "12"⟩ :=
  min_items_message (Taxonomy.create ["knowledge"] "p" .standard false)
    ⟨"minItems", 5, "engine text", "$.seed_examples", "12"⟩ rfl

/-! ### C6 -/

set_option maxRecDepth 4096 in
/-- C6: any non-`minItems` schema-validation violation is reported as exactly
one error diagnostic whose message is the last 200 characters of the engine's
message: a suffix of the engine message of length `min 200 (its length)`, and
the entire message when it has at most 200 characters. -/
theorem truncated_message (t : Taxonomy) (v : Violation) (h : v.validator ≠ "minItems") :
    ∃ d, (reportViolation t v).diagnostics = t.diagnostics ++ [d] ∧
      d.severity = .error ∧
      d.message = pySliceLast 200 v.message ∧
      (∃ pre, v.message.data = pre ++ d.message.data) ∧
      d.message.length = min 200 v.message.length ∧
      (v.message.length ≤ 200 → d.message = v.message) := by
  refine ⟨⟨.error, pySliceLast 200 v.message, [], v.line, "1",
    if v.jsonPath.drop 1 = "" then "." else v.jsonPath.drop 1⟩, ?_, rfl, rfl, ?_, ?_, ?_⟩
  · unfold reportViolation
    rw [if_neg (fun hc => h (by simpa using hc))]
    rfl
  · refine ⟨v.message.data.take (v.message.data.length - 200), ?_⟩
    show v.message.data
      = v.message.data.take (v.message.data.length - 200)
        ++ v.message.data.drop (v.message.data.length - 200)
    exact (List.take_append_drop _ _).symm
  · show (pySliceLast 200 v.message).length = _
    unfold pySliceLast
    show (v.message.data.drop (v.message.data.length - 200)).length = _
    rw [List.length_drop]
    have : v.message.length = v.message.data.length := rfl
    omega
  · intro hle
    show pySliceLast 200 v.message = v.message
    unfold pySliceLast
    have h0 : v.message.data.length - 200 = 0 := by
      have : v.message.length = v.message.data.length := rfl
      omega
    rw [h0, List.drop_zero]

/-! ### Lemmas about `schemaValidate` and `parse` -/

theorem reportViolation_version (t : Taxonomy) (v : Violation) :
    (reportViolation t v).version = t.version := by
  unfold reportViolation; split <;> rfl

theorem reportViolation_path (t : Taxonomy) (v : Violation) :
    (reportViolation t v).path = t.path := by
  unfold reportViolation; split <;> rfl

theorem reportViolation_parsed (t : Taxonomy) (v : Violation) :
    (reportViolation t v).parsed = t.parsed := by
  unfold reportViolation; split <;> rfl

theorem foldl_reportViolation_version (vs : List Violation) (t : Taxonomy) :
    (vs.foldl reportViolation t).version = t.version := by
  induction vs generalizing t with
  | nil => rfl
  | cons v vs ih =>
    simp only [List.foldl_cons]
    rw [ih, reportViolation_version]

theorem schemaValidate_version (p : TaxonomyParser) (disk : String → Option YamlValue)
    (st : SchemaCache) (vs : List Violation) (t : Taxonomy) :
    (p.schemaValidate disk st vs t).2.version = t.version := by
  simp only [TaxonomyParser.schemaValidate]
  rcases hl : loadSchema disk st (p.schemaPathFor t) with ⟨st1, r⟩
  cases r with
  | ok w => exact foldl_reportViolation_version vs t
  | error e => rfl

theorem schemaValidate_counts (p : TaxonomyParser) (disk : String → Option YamlValue)
    (st : SchemaCache) (vs : List Violation) (t : Taxonomy) :
    (p.schemaValidate disk st vs t).2.errors + (p.schemaValidate disk st vs t).2.warnings
      = t.errors + t.warnings +
        (match (loadSchema disk st (p.schemaPathFor t)).2 with
          | .ok _ => vs.length
          | .error _ => 1) := by
  simp only [TaxonomyParser.schemaValidate]
  rcases hl : loadSchema disk st (p.schemaPathFor t) with ⟨st1, r⟩
  cases r with
  | ok w =>
    simp only [foldl_reportViolation_errors, foldl_reportViolation_warnings]
    omega
  | error e =>
    simp only [Taxonomy.error]
    omega

theorem schemaPathFor_yamllint (p : TaxonomyParser) (s : Bool) (fs : List LintFinding)
    (t : Taxonomy) : p.schemaPathFor (yamllint s fs t) = p.schemaPathFor t := by
  unfold TaxonomyParser.schemaPathFor TaxonomyParser.schemaNameFor
  rw [yamllint_version, yamllint_path, yamllint_parsed]

theorem parse_main (p : TaxonomyParser) (st : SchemaCache) (parts : List String)
    (fs : List LintFinding) (vs : List Violation) (disk : String → Option YamlValue)
    (ge : Bool) (parsed : YamlValue) (version : Int)
    (hn : parts.getLastD "" = "qna.yaml")
    (ht : parsed.isTruthy = true) (hm : parsed.isMapping = true)
    (hv : resolveVersion p.schemaVersion parsed = .ok version) :
    p.parse st ⟨parts, true, .ok parsed, fs, vs, disk, ge⟩
      = .ok ((p.schemaValidate disk st vs
          (if version > 1 then
            yamllint p.yamllintStrict fs
              { initialTaxonomy p ⟨parts, true, .ok parsed, fs, vs, disk, ge⟩ with
                version := version, parsed := parsed }
          else
            { initialTaxonomy p ⟨parts, true, .ok parsed, fs, vs, disk, ge⟩ with
              version := version, parsed := parsed })).2,
        (p.schemaValidate disk st vs
          (if version > 1 then
            yamllint p.yamllintStrict fs
              { initialTaxonomy p ⟨parts, true, .ok parsed, fs, vs, disk, ge⟩ with
                version := version, parsed := parsed }
          else
            { initialTaxonomy p ⟨parts, true, .ok parsed, fs, vs, disk, ge⟩ with
              version := version, parsed := parsed })).1) := by
  unfold TaxonomyParser.parse
  rw [hn]
  simp only [ht, hm, hv, Bool.not_true, Bool.false_eq_true, if_false, ne_eq,
    not_true_eq_false, ite_false]

theorem parse_raises (p : TaxonomyParser) (st : SchemaCache) (parts : List String)
    (fs : List LintFinding) (vs : List Violation) (disk : String → Option YamlValue)
    (ge : Bool) (parsed : YamlValue) (e : String)
    (hn : parts.getLastD "" = "qna.yaml")
    (ht : parsed.isTruthy = true) (hm : parsed.isMapping = true)
    (hv : resolveVersion p.schemaVersion parsed = .error e) :
    p.parse st ⟨parts, true, .ok parsed, fs, vs, disk, ge⟩
      = .error (.taxonomyReadingException e) := by
  unfold TaxonomyParser.parse
  rw [hn]
  simp only [ht, hm, hv, Bool.not_true, Bool.false_eq_true, if_false, ne_eq,
    not_true_eq_false, ite_false]

theorem parse_ok_version (p : TaxonomyParser) (st : SchemaCache) (parts : List String)
    (fs : List LintFinding) (vs : List Violation) (disk : String → Option YamlValue)
    (ge : Bool) (parsed : YamlValue) (version : Int)
    (hn : parts.getLastD "" = "qna.yaml")
    (ht : parsed.isTruthy = true) (hm : parsed.isMapping = true)
    (hv : resolveVersion p.schemaVersion parsed = .ok version) :
    ∃ t st1, p.parse st ⟨parts, true, .ok parsed, fs, vs, disk, ge⟩ = .ok (t, st1) ∧
      t.version = version := by
  refine ⟨_, _, parse_main p st parts fs vs disk ge parsed version hn ht hm hv, ?_⟩
  rw [schemaValidate_version]
  split
  · rw [yamllint_version]
  · rfl

theorem sv_yamllint_delta (p : TaxonomyParser) (disk : String → Option YamlValue)
    (st : SchemaCache) (vs : List Violation) (s : Bool) (fs : List LintFinding)
    (t : Taxonomy) :
    (p.schemaValidate disk st vs (yamllint s fs t)).2.errors
      + (p.schemaValidate disk st vs (yamllint s fs t)).2.warnings
    = (p.schemaValidate disk st vs t).2.errors + (p.schemaValidate disk st vs t).2.warnings
      + fs.length := by
  have cL := schemaValidate_counts p disk st vs (yamllint s fs t)
  have cR := schemaValidate_counts p disk st vs t
  have cY := yamllint_counts s fs t
  rw [schemaPathFor_yamllint] at cL
  omega

theorem resolveVersion_doc (sv : Int) (hp : sv < 1) (m : List (String × YamlValue)) :
    resolveVersion sv (.map m)
      = match (YamlValue.map m).mapGet "version" with
        | none => .ok 1
        | some (.int n) => .ok n
        | some (.bool b) => .ok (if b then 1 else 0)
        | some (.str s) => .ok ((pyStrToInt s).getD 1)
        | some _ => .error "TypeError: int() argument" := by
  unfold resolveVersion
  rw [if_pos hp]
  rcases hver : (YamlValue.map m).mapGet "version" with _ | val
  · rfl
  · cases val <;> rfl

/-- Witness for C6 at a concrete short-message violation: the reported message
is the engine message itself. -/
theorem truncated_message_witness :
    ∃ d, (reportViolation (Taxonomy.create ["knowledge"] "p" .standard false)
        ⟨"required", 0, "created_by is a required property", "$", "1"⟩).diagnostics
      = (Taxonomy.create ["knowledge"] "p" .standard false).diagnostics ++ [d] ∧
      d.severity = .error ∧
      d.message = pySliceLast 200 "created_by is a required property" ∧
      (∃ pre, ("created_by is a required property" : String).data = pre ++ d.message.data) ∧
      d.message.length = min 200 ("created_by is a required property" : String).length ∧
      (("created_by is a required property" : String).length ≤ 200 →
        d.message = "created_by is a required property") :=
  truncated_message (Taxonomy.create ["knowledge"] "p" .standard false)
    ⟨"required", 0, "created_by is a required property", "$", "1"⟩ (by simp)

/-! ### C1 -/

/-- C1 (amended): with `schema_version < 1` and a nonempty mapping document,
the resolved version equals the document's `version` value when it is an int
instance (booleans included, `True` as 1 and `False` as 0), defaults to 1 when
the key is absent, and for a string value is its parsed integer with fallback
to 1 when unparsable (`ValueError`); but for a `version` value of any other
type (null, sequence, mapping) `int(value)` raises `TypeError`, which is not
caught, so parse raises `TaxonomyReadingException`. -/
theorem version_resolution (p : TaxonomyParser) (st : SchemaCache) (parts : List String)
    (fs : List LintFinding) (vs : List Violation) (disk : String → Option YamlValue)
    (ge : Bool) (m : List (String × YamlValue))
    (hp : p.schemaVersion < 1)
    (hn : parts.getLastD "" = "qna.yaml")
    (hne : m ≠ []) :
    match (YamlValue.map m).mapGet "version" with
    | none => ∃ t st1, p.parse st ⟨parts, true, .ok (.map m), fs, vs, disk, ge⟩
        = .ok (t, st1) ∧ t.version = 1
    | some (.int n) => ∃ t st1, p.parse st ⟨parts, true, .ok (.map m), fs, vs, disk, ge⟩
        = .ok (t, st1) ∧ t.version = n
    | some (.bool b) => ∃ t st1, p.parse st ⟨parts, true, .ok (.map m), fs, vs, disk, ge⟩
        = .ok (t, st1) ∧ t.version = (if b then 1 else 0)
    | some (.str s) => ∃ t st1, p.parse st ⟨parts, true, .ok (.map m), fs, vs, disk, ge⟩
        = .ok (t, st1) ∧ t.version = ((pyStrToInt s).getD 1)
    | some _ => p.parse st ⟨parts, true, .ok (.map m), fs, vs, disk, ge⟩
        = .error (.taxonomyReadingException "TypeError: int() argument") := by
  have ht : (YamlValue.map m).isTruthy = true := by
    simp only [YamlValue.isTruthy, Bool.not_eq_true', List.isEmpty_eq_false]
    exact hne
  have hm : (YamlValue.map m).isMapping = true := rfl
  have hres := resolveVersion_doc p.schemaVersion hp m
  rw [show p.schemaVersion = p.schemaVersion from rfl] at hres
  rcases hver : (YamlValue.map m).mapGet "version" with _ | val
  · rw [hver] at hres
    exact parse_ok_version p st parts fs vs disk ge (.map m) 1 hn ht hm hres
  · rw [hver] at hres
    cases val with
    | null => exact parse_raises p st parts fs vs disk ge (.map m) _ hn ht hm hres
    | bool b => exact parse_ok_version p st parts fs vs disk ge (.map m) _ hn ht hm hres
    | int n => exact parse_ok_version p st parts fs vs disk ge (.map m) _ hn ht hm hres
    | str s => exact parse_ok_version p st parts fs vs disk ge (.map m) _ hn ht hm hres
    | seq l => exact parse_raises p st parts fs vs disk ge (.map m) _ hn ht hm hres
    | map es => exact parse_raises p st parts fs vs disk ge (.map m) _ hn ht hm hres

/-- Counterexample for C1 as stated: a document whose `version` value is null
— merely an unconvertible type — makes parse raise `TaxonomyReadingException`
(`int(None)` raises `TypeError`, which the code does not catch), instead of
falling back to 1. -/
theorem version_resolution_counterexample :
    TaxonomyParser.parse ⟨["compositional_skills", "knowledge"], 0, "{}", false, .logging⟩
        ⟨[], 0⟩
        ⟨["taxonomy", "compositional_skills", "x", "qna.yaml"], true,
          .ok (.map [("version", .null), ("created_by", .str "me")]), [], [],
          fun _ => none, false⟩
      = .error (.taxonomyReadingException "TypeError: int() argument") := rfl

/-- Witness for C1 at a concrete document with a parseable string version. -/
theorem version_resolution_witness :
    ∃ t st1,
      TaxonomyParser.parse ⟨["compositional_skills", "knowledge"], 0, "{}", false, .logging⟩
          ⟨[], 0⟩
          ⟨["taxonomy", "compositional_skills", "x", "qna.yaml"], true,
            .ok (.map [("version", .str "3")]), [], [], fun _ => none, false⟩
        = .ok (t, st1) ∧ t.version = ((pyStrToInt "3").getD 1) :=
  version_resolution ⟨["compositional_skills", "knowledge"], 0, "{}", false, .logging⟩
    ⟨[], 0⟩ ["taxonomy", "compositional_skills", "x", "qna.yaml"] [] []
    (fun _ => none) false [("version", .str "3")] (by decide) rfl (by simp)

/-! ### C2 -/

/-- C2 (amended): the lint adapter is skipped exactly when the resolved
version is at most 1 (the code gates on `version > 1`), not only when it is
exactly 1: when the resolved version is at most 1 the parse result does not
depend on the lint findings at all, and when it exceeds 1 every lint finding
is reported as exactly one additional diagnostic. -/
theorem lint_gate (p : TaxonomyParser) (st : SchemaCache) (parts : List String)
    (fs : List LintFinding) (vs : List Violation) (disk : String → Option YamlValue)
    (ge : Bool) (parsed : YamlValue) (version : Int)
    (hn : parts.getLastD "" = "qna.yaml")
    (ht : parsed.isTruthy = true) (hm : parsed.isMapping = true)
    (hv : resolveVersion p.schemaVersion parsed = .ok version) :
    (version ≤ 1 →
      p.parse st ⟨parts, true, .ok parsed, fs, vs, disk, ge⟩
        = p.parse st ⟨parts, true, .ok parsed, [], vs, disk, ge⟩) ∧
    (1 < version → ∀ t st1 t0 st0,
      p.parse st ⟨parts, true, .ok parsed, fs, vs, disk, ge⟩ = .ok (t, st1) →
      p.parse st ⟨parts, true, .ok parsed, [], vs, disk, ge⟩ = .ok (t0, st0) →
      t.errors + t.warnings = t0.errors + t0.warnings + fs.length) := by
  have hL := parse_main p st parts fs vs disk ge parsed version hn ht hm hv
  have hR := parse_main p st parts [] vs disk ge parsed version hn ht hm hv
  have hI : initialTaxonomy p ⟨parts, true, .ok parsed, [], vs, disk, ge⟩
      = initialTaxonomy p ⟨parts, true, .ok parsed, fs, vs, disk, ge⟩ := rfl
  rw [hI] at hR
  constructor
  · intro hle
    rw [hL, hR, if_neg (by omega), if_neg (by omega)]
  · intro hgt t st1 t0 st0 hpt hpt0
    rw [hL, if_pos hgt] at hpt
    rw [hR, if_pos hgt] at hpt0
    simp only [yamllint, List.foldl_nil] at hpt0
    simp only [Except.ok.injEq, Prod.mk.injEq] at hpt hpt0
    obtain ⟨hpt1, -⟩ := hpt
    obtain ⟨hpt01, -⟩ := hpt0
    subst hpt1; subst hpt01
    exact sv_yamllint_delta p disk st vs p.yamllintStrict fs _

/-- Counterexample for C2 as stated: a document resolving to version 0 (not 1)
with one pending lint finding produces no diagnostics at all — the lint
adapter was skipped although the resolved version is not exactly 1. -/
theorem lint_gate_counterexample :
    ((TaxonomyParser.parse ⟨["compositional_skills", "knowledge"], 0, "{}", false, .logging⟩
        ⟨[], 0⟩
        ⟨["taxonomy", "compositional_skills", "x", "qna.yaml"], true,
          .ok (.map [("version", .int 0), ("created_by", .str "me")]),
          [⟨"7", "121", "warning", "line too long"⟩], [],
          (fun s => if s = "v0/compositional_skills.json" then some (.map []) else none),
          false⟩).toOption.map
      fun r => (r.1.version, r.1.errors, r.1.warnings))
    = some (0, 0, 0) := rfl

/-- Witness for C2 at a version-1 document: the parse result is independent of
the lint findings. -/
theorem lint_gate_witness :
    TaxonomyParser.parse ⟨["compositional_skills", "knowledge"], 0, "{}", false, .logging⟩
        ⟨[], 0⟩
        ⟨["taxonomy", "compositional_skills", "x", "qna.yaml"], true,
          .ok (.map [("version", .int 1)]),
          [⟨"7", "121", "warning", "line too long"⟩], [], (fun _ => none), false⟩
      = TaxonomyParser.parse ⟨["compositional_skills", "knowledge"], 0, "{}", false, .logging⟩
        ⟨[], 0⟩
        ⟨["taxonomy", "compositional_skills", "x", "qna.yaml"], true,
          .ok (.map [("version", .int 1)]), [], [], (fun _ => none), false⟩ :=
  (lint_gate ⟨["compositional_skills", "knowledge"], 0, "{}", false, .logging⟩ ⟨[], 0⟩
    ["taxonomy", "compositional_skills", "x", "qna.yaml"]
    [⟨"7", "121", "warning", "line too long"⟩] [] (fun _ => none) false
    (.map [("version", .int 1)]) 1 rfl rfl rfl rfl).1 (by omega)

/-! ### C3 -/

/-- C3 (amended): a qna.yaml file decoding to a nonempty top-level sequence
yields exactly one error and zero warnings, the error being the
top-level-element-is-not-an-object diagnostic; but a file decoding to the
EMPTY sequence is falsy in Python and instead yields the file-is-empty
warning (one warning, zero errors), so the empty-document warning is not
reserved to empty documents alone. -/
theorem seq_toplevel (p : TaxonomyParser) (st : SchemaCache) (parts : List String)
    (fs : List LintFinding) (vs : List Violation) (disk : String → Option YamlValue)
    (ge : Bool) (hn : parts.getLastD "" = "qna.yaml") :
    (∀ x xs, ∃ t, p.parse st ⟨parts, true, .ok (.seq (x :: xs)), fs, vs, disk, ge⟩
      = .ok (t, st) ∧ t.errors = 1 ∧ t.warnings = 0 ∧
      t.diagnostics.map Diagnostic.message
        = ["The file is not valid. The top-level element is not an object with key-value pairs."] ∧
      t.diagnostics.map Diagnostic.severity = [.error]) ∧
    (∃ t, p.parse st ⟨parts, true, .ok (.seq []), fs, vs, disk, ge⟩
      = .ok (t, st) ∧ t.errors = 0 ∧ t.warnings = 1 ∧
      t.diagnostics.map Diagnostic.message = ["The file is empty"] ∧
      t.diagnostics.map Diagnostic.severity = [.warning]) := by
  constructor
  · intro x xs
    have hp : p.parse st ⟨parts, true, .ok (.seq (x :: xs)), fs, vs, disk, ge⟩
        = .ok ((initialTaxonomy p ⟨parts, true, .ok (.seq (x :: xs)), fs, vs, disk, ge⟩).error
            "The file is not valid. The top-level element is not an object with key-value pairs."
            [] "1" "1" "", st) := by
      unfold TaxonomyParser.parse
      rw [hn]
      simp only [ne_eq, not_true_eq_false, ite_false]
      rfl
    exact ⟨_, hp, rfl, rfl, rfl, rfl⟩
  · have hp : p.parse st ⟨parts, true, .ok (.seq []), fs, vs, disk, ge⟩
        = .ok ((initialTaxonomy p ⟨parts, true, .ok (.seq []), fs, vs, disk, ge⟩).warning
            "The file is empty" [] "1" "1" "", st) := by
      unfold TaxonomyParser.parse
      rw [hn]
      simp only [ne_eq, not_true_eq_false, ite_false]
      rfl
    exact ⟨_, hp, rfl, rfl, rfl, rfl⟩

/-- Counterexample for C3 as stated: the empty top-level sequence yields one
warning (`The file is empty`) and zero errors, not the claimed single
not-an-object error. -/
theorem seq_toplevel_counterexample :
    ((TaxonomyParser.parse ⟨["compositional_skills", "knowledge"], 0, "{}", false, .logging⟩
        ⟨[], 0⟩
        ⟨["taxonomy", "compositional_skills", "x", "qna.yaml"], true,
          .ok (.seq []), [], [], (fun _ => none), false⟩).toOption.map
      fun r => (r.1.errors, r.1.warnings, r.1.diagnostics.map Diagnostic.message))
    = some (0, 1, ["The file is empty"]) := rfl

/-- Witness for C3 at a concrete one-element sequence document. -/
theorem seq_toplevel_witness :
    ∃ t, TaxonomyParser.parse ⟨["compositional_skills", "knowledge"], 0, "{}", false, .logging⟩
        ⟨[], 0⟩
        ⟨["taxonomy", "compositional_skills", "x", "qna.yaml"], true,
          .ok (.seq (.int 1 :: [])), [], [], (fun _ => none), false⟩
      = .ok (t, ⟨[], 0⟩) ∧ t.errors = 1 ∧ t.warnings = 0 ∧
      t.diagnostics.map Diagnostic.message
        = ["The file is not valid. The top-level element is not an object with key-value pairs."] ∧
      t.diagnostics.map Diagnostic.severity = [.error] :=
  (seq_toplevel ⟨["compositional_skills", "knowledge"], 0, "{}", false, .logging⟩ ⟨[], 0⟩
    ["taxonomy", "compositional_skills", "x", "qna.yaml"] [] [] (fun _ => none) false
    rfl).1 (.int 1) []

/-! ### C4 -/

/-- C4: when the selected (version, schema-name) document cannot be loaded
(neither cached nor on disk), `_schema_validate` reports exactly one error
diagnostic naming the missing schema resource — the result equals a single
`error` call, so errors grow by one, warnings are unchanged, and the engine's
violations are never iterated (the result is the same as with no violations);
and `parse` on any input reaching schema validation still returns a populated
entry normally rather than raising. -/
theorem schema_load_failure (p : TaxonomyParser) (disk : String → Option YamlValue)
    (st : SchemaCache) (vs : List Violation) (t : Taxonomy)
    (h1 : st.find (p.schemaPathFor t) = none)
    (h2 : disk (p.schemaPathFor t) = none) :
    (p.schemaValidate disk st vs t).2
      = t.error "Cannot load schema file %s. %s"
          [p.schemaPathFor t, noSuchResourceStr (p.schemaPathFor t)] "1" "1" "" ∧
    (p.schemaValidate disk st vs t).2.errors = t.errors + 1 ∧
    (p.schemaValidate disk st vs t).2.warnings = t.warnings ∧
    p.schemaValidate disk st vs t = p.schemaValidate disk st [] t ∧
    ∀ (st0 : SchemaCache) (parts : List String) (fs : List LintFinding)
      (ge : Bool) (parsed : YamlValue) (version : Int),
      parts.getLastD "" = "qna.yaml" → parsed.isTruthy = true → parsed.isMapping = true →
      resolveVersion p.schemaVersion parsed = .ok version →
      ∃ t1 st1, p.parse st0 ⟨parts, true, .ok parsed, fs, vs, disk, ge⟩ = .ok (t1, st1) := by
  have hload : loadSchema disk st (p.schemaPathFor t)
      = (⟨st.entries, st.loadCalls + 1⟩, .error (p.schemaPathFor t)) := by
    unfold loadSchema
    rw [h1, h2]
  have hsv : ∀ ws : List Violation, p.schemaValidate disk st ws t
      = (⟨st.entries, st.loadCalls + 1⟩,
        t.error "Cannot load schema file %s. %s"
          [p.schemaPathFor t, noSuchResourceStr (p.schemaPathFor t)] "1" "1" "") := by
    intro ws
    simp only [TaxonomyParser.schemaValidate]
    rw [hload]
  refine ⟨by rw [hsv vs], by rw [hsv vs]; rfl, by rw [hsv vs]; rfl,
    by rw [hsv vs, hsv []], ?_⟩
  intro st0 parts fs ge parsed version hn ht hm hv
  exact ⟨_, _, parse_main p st0 parts fs vs disk ge parsed version hn ht hm hv⟩

/-- Witness for C4: an empty cache, an empty disk and a concrete document —
schema validation adds exactly one error and parse returns normally. -/
theorem schema_load_failure_witness :
    ((⟨["compositional_skills", "knowledge"], 0, "{}", false,
        .logging⟩ : TaxonomyParser).schemaValidate (fun _ => none) ⟨[], 0⟩
      [⟨"required", 0, "msg", "$", "1"⟩]
      (Taxonomy.create ["knowledge", "x", "qna.yaml"] "p" .standard false)).2.errors
      = (Taxonomy.create ["knowledge", "x", "qna.yaml"] "p" .standard false).errors + 1 ∧
    ∃ t1 st1,
      (⟨["compositional_skills", "knowledge"], 0, "{}", false,
        .logging⟩ : TaxonomyParser).parse ⟨[], 0⟩
        ⟨["taxonomy", "knowledge", "x", "qna.yaml"], true,
          .ok (.map [("version", .int 1)]), [], [⟨"required", 0, "msg", "$", "1"⟩],
          (fun _ => none), false⟩ = .ok (t1, st1) :=
  ⟨(schema_load_failure ⟨["compositional_skills", "knowledge"], 0, "{}", false, .logging⟩
      (fun _ => none) ⟨[], 0⟩ [⟨"required", 0, "msg", "$", "1"⟩]
      (Taxonomy.create ["knowledge", "x", "qna.yaml"] "p" .standard false)
      rfl rfl).2.1,
   (schema_load_failure ⟨["compositional_skills", "knowledge"], 0, "{}", false, .logging⟩
      (fun _ => none) ⟨[], 0⟩ [⟨"required", 0, "msg", "$", "1"⟩]
      (Taxonomy.create ["knowledge", "x", "qna.yaml"] "p" .standard false)
      rfl rfl).2.2.2.2 ⟨[], 0⟩ ["taxonomy", "knowledge", "x", "qna.yaml"] [] false
      (.map [("version", .int 1)]) 1 rfl rfl rfl rfl⟩

/-! ### C10 -/

/-- C10 (amended): every early-exiting parse (not a regular file, wrong file
name, falsy decoded document, or non-mapping top level) returns an entry whose
parsed document is the empty mapping and whose version is 0 — the
parsed/version fields are only set after a successful decode of a truthy
mapping.  (A version of 0 on the result does not by itself indicate that
decoding never succeeded: a successfully decoded document whose own `version`
key is 0 also yields a returned entry with version 0, see the
counterexample.) -/
theorem early_exit_fields (p : TaxonomyParser) (st : SchemaCache) (i : ParseInput)
    (h : i.isFile = false ∨ i.pathParts.getLastD "" ≠ "qna.yaml" ∨
      ∃ v, i.decodeResult = .ok v ∧ (v.isTruthy = false ∨ v.isMapping = false)) :
    ∃ t, p.parse st i = .ok (t, st) ∧ t.parsed = .map [] ∧ t.version = 0 := by
  obtain ⟨parts, f, dr, fs, vs, dk, ge⟩ := i
  have h9 : f = false ∨ parts.getLastD "" ≠ "qna.yaml" ∨
      ∃ v, dr = .ok v ∧ (v.isTruthy = false ∨ v.isMapping = false) := h
  cases f with
  | false =>
    exact ⟨_, rfl, rfl, rfl⟩
  | true =>
    rcases h9 with h9 | h9 | h9
    · exact absurd h9 (by decide)
    · have hp : p.parse st ⟨parts, true, dr, fs, vs, dk, ge⟩
          = .ok ((initialTaxonomy p ⟨parts, true, dr, fs, vs, dk, ge⟩).error
              "Taxonomy file must be named \"qna.yaml\"; \"%s\" is not a valid name"
              [parts.getLastD ""] "1" "1" "", st) := by
        unfold TaxonomyParser.parse
        rw [if_neg (by simp), if_pos h9]
      exact ⟨_, hp, rfl, rfl⟩
    · obtain ⟨v, hdr, hc⟩ := h9
      subst hdr
      by_cases hname : parts.getLastD "" = "qna.yaml"
      · have hwarn : v.isTruthy = false →
            p.parse st ⟨parts, true, .ok v, fs, vs, dk, ge⟩
              = .ok ((initialTaxonomy p ⟨parts, true, .ok v, fs, vs, dk, ge⟩).warning
                  "The file is empty" [] "1" "1" "", st) := by
          intro hT
          unfold TaxonomyParser.parse
          rw [hname]
          simp only [ne_eq, not_true_eq_false, ite_false, hT]
          rfl
        rcases hc with hT | hM
        · exact ⟨_, hwarn hT, rfl, rfl⟩
        · cases hT2 : v.isTruthy with
          | false => exact ⟨_, hwarn hT2, rfl, rfl⟩
          | true =>
            have hp : p.parse st ⟨parts, true, .ok v, fs, vs, dk, ge⟩
                = .ok ((initialTaxonomy p ⟨parts, true, .ok v, fs, vs, dk, ge⟩).error
                    "The file is not valid. The top-level element is not an object with key-value pairs."
                    [] "1" "1" "", st) := by
              unfold TaxonomyParser.parse
              rw [hname]
              simp only [ne_eq, not_true_eq_false, ite_false, hT2, hM]
              rfl
            exact ⟨_, hp, rfl, rfl⟩
      · have hp : p.parse st ⟨parts, true, .ok v, fs, vs, dk, ge⟩
            = .ok ((initialTaxonomy p ⟨parts, true, .ok v, fs, vs, dk, ge⟩).error
                "Taxonomy file must be named \"qna.yaml\"; \"%s\" is not a valid name"
                [parts.getLastD ""] "1" "1" "", st) := by
          unfold TaxonomyParser.parse
          rw [if_neg (by simp), if_pos hname]
        exact ⟨_, hp, rfl, rfl⟩

/-- Counterexample for C10 as stated: a successfully decoded nonempty mapping
whose `version` key is 0 completes the full parse and returns an entry with
version 0 and a non-empty parsed document — version 0 on the result does not
imply that decoding never succeeded. -/
theorem early_exit_fields_counterexample :
    ((TaxonomyParser.parse ⟨["compositional_skills", "knowledge"], 0, "{}", false, .logging⟩
        ⟨[], 0⟩
        ⟨["taxonomy", "compositional_skills", "x", "qna.yaml"], true,
          .ok (.map [("version", .int 0), ("created_by", .str "me")]), [], [],
          (fun s => if s = "v0/compositional_skills.json" then some (.map []) else none),
          false⟩).toOption.map
      fun r => (r.1.version, r.1.parsed))
    = some (0, .map [("version", .int 0), ("created_by", .str "me")]) := rfl

/-- Witness for C10 at a concrete nonexistent file. -/
theorem early_exit_fields_witness :
    ∃ t, TaxonomyParser.parse ⟨["compositional_skills", "knowledge"], 2, "{}", false, .logging⟩
        ⟨[], 0⟩
        ⟨["taxonomy", "knowledge", "x", "qna.yaml"], false,
          .ok (.map []), [], [], (fun _ => none), false⟩
      = .ok (t, ⟨[], 0⟩) ∧ t.parsed = .map [] ∧ t.version = 0 :=
  early_exit_fields ⟨["compositional_skills", "knowledge"], 2, "{}", false, .logging⟩
    ⟨[], 0⟩
    ⟨["taxonomy", "knowledge", "x", "qna.yaml"], false, .ok (.map []), [], [],
      (fun _ => none), false⟩
    (Or.inl rfl)

end InstructlabSchema
